import Mathlib

/-!
Shallow embedding of the batch CNPJ-lookup service
(`app/services/consulta_site.py`, `app/services/consulta_optantes.py`,
`app/main.py`) together with proofs about its specified behaviour.

Python strings are `String`, epoch seconds are `Int`, JSON values are the
inductive `JVal`, the SQLite cache table is an association list from the
CNPJ key to its row, HTTP attempts are an outcome oracle `Nat → HttpOutcome`,
and the only uncaught exception path (`AttributeError` from calling `.get`
on a non-dict) is modelled with `Except String`.
-/

set_option maxHeartbeats 1000000

namespace ConsultaOptantes

/-! ### String helpers -/

/-- Python `needle in hay` on lists of characters: `startsWithChars` is the
anchored comparison used by the scan. -/
def startsWithChars : List Char → List Char → Bool
  | [], _ => true
  | _ :: _, [] => false
  | a :: as, b :: bs => a == b && startsWithChars as bs

/-- Python substring test `needle in hay` (contiguous occurrence). -/
def hasSubChars (n : List Char) : List Char → Bool
  | [] => n.isEmpty
  | c :: t => startsWithChars n (c :: t) || hasSubChars n t

/-- Python `needle in hay` on strings. -/
def hasSub (needle hay : String) : Bool :=
  hasSubChars needle.data hay.data

/-- Python `str.lower()` for the alphabet this service manipulates
(ASCII letters plus the accented `Ã` appearing in `"NÃO"`). -/
def pyLower (s : String) : String :=
  s.map (fun c => if c = 'Ã' then 'ã' else c.toLower)

/-- `_clean_cnpj` / `re.sub(r"\D+", "", str(cnpj or ""))`: keep only digits. -/
def clean_cnpj (s : String) : String :=
  ⟨s.data.filter Char.isDigit⟩

/-- `re.fullmatch(r"\d{14}", s)`: exactly fourteen digits. -/
def isValid14 (s : String) : Bool :=
  s.length == 14 && s.data.all Char.isDigit

/-! ### JSON values and the Python `dict` operations the client uses -/

/-- JSON values as `requests`' `r.json()` can produce them. -/
inductive JVal where
  | jnull
  | jbool (b : Bool)
  | jnum (n : Int)
  | jstr (s : String)
  | jarr (elems : List JVal)
  | jobj (fields : List (String × JVal))

/-- Python truthiness of a JSON value (`bool(x)`). -/
def truthy : JVal → Bool
  | .jnull => false
  | .jbool b => b
  | .jnum n => n != 0
  | .jstr s => s != ""
  | .jarr l => !l.isEmpty
  | .jobj l => !l.isEmpty

/-- Python `x or d`: `x` when truthy, else `d`. -/
def pyOr (x d : JVal) : JVal :=
  if truthy x then x else d

/-- Python `x.get(k)`: returns the field (or `None`) when `x` is a dict and
raises `AttributeError` otherwise. -/
def pyGet (x : JVal) (k : String) : Except String JVal :=
  match x with
  | .jobj fields => .ok ((fields.lookup k).getD .jnull)
  | _ => .error "AttributeError"

/-! ### `_as_sim_nao`, `_extract_optant_flag`, `_pick_razao_social` -/

/-- `_as_sim_nao`: convert assorted shapes to `"Sim"`/`"Não"`/`""`. -/
def as_sim_nao (v : JVal) : String :=
  match v with
  | .jnull => ""
  | .jbool b => if b then "Sim" else "Não"
  | .jnum n => if n == 1 then "Sim" else if n == 0 then "Não" else ""
  | .jstr s =>
      let t := pyLower s.trim
      if ["sim", "s", "yes", "true", "1", "optante"].contains t then "Sim"
      else if ["nao", "não", "n", "no", "false", "0", "nao optante", "não optante"].contains t then "Não"
      else if hasSub "optante" t && !hasSub "nao" t && !hasSub "não" t then "Sim"
      else if hasSub "não" t || hasSub "nao" t then "Não"
      else ""
  | .jarr _ => ""
  | .jobj _ => ""

/-- The priority key list scanned by `_extract_optant_flag`. -/
def optantKeys : List String :=
  ["optant", "opted", "is_optant", "isOptant", "is_opted", "option",
   "enabled", "mei", "active", "status"]

/-- The `"status"` special case inside `_extract_optant_flag`'s key loop. -/
def statusSpecial (k : String) (v : JVal) : Option String :=
  if k = "status" then
    match v with
    | .jstr s =>
        let sv := pyLower s.trim
        if hasSub "opt" sv && !hasSub "non" sv && !hasSub "nao" sv && !hasSub "não" sv then
          some "Sim"
        else if hasSub "non" sv || hasSub "nao" sv || hasSub "não" sv then
          some "Não"
        else none
    | _ => none
  else none

/-- The key loop of `_extract_optant_flag` over a dict's fields. -/
def extractFromKeys (fields : List (String × JVal)) : List String → Option String
  | [] => none
  | k :: ks =>
      match fields.lookup k with
      | none => extractFromKeys fields ks
      | some v =>
          match statusSpecial k v with
          | some r => some r
          | none =>
              let out := as_sim_nao v
              if out ≠ "" then some out else extractFromKeys fields ks

/-- The value-scan fallback of `_extract_optant_flag`. -/
def firstSimNao : List JVal → Option String
  | [] => none
  | v :: vs =>
      let o := as_sim_nao v
      if o ≠ "" then some o else firstSimNao vs

/-- `_extract_optant_flag`: read the yes/no indicator out of varied shapes. -/
def extract_optant_flag (obj : JVal) : String :=
  match obj with
  | .jnull => ""
  | .jbool _ => as_sim_nao obj
  | .jnum _ => as_sim_nao obj
  | .jstr _ => as_sim_nao obj
  | .jobj fields =>
      match extractFromKeys fields optantKeys with
      | some r => r
      | none =>
          match firstSimNao (fields.map Prod.snd) with
          | some r => r
          | none => ""
  | .jarr _ => ""

/-- The candidate-name loops of `_pick_razao_social`: first string field with a
non-empty strip wins; raises when `company` is a truthy non-dict. -/
def pickFirstStr (company : JVal) : List String → Except String String
  | [] => .ok ""
  | k :: ks => do
      let v ← pyGet company k
      match v with
      | .jstr s => if s.trim ≠ "" then pure s.trim else pickFirstStr company ks
      | _ => pickFirstStr company ks

/-- Primary key list of `_pick_razao_social`. -/
def razaoKeys : List String :=
  ["name", "legal_name", "corporate_name", "razao_social", "company_name", "social_reason"]

/-- Fallback key list of `_pick_razao_social`. -/
def razaoFallbackKeys : List String :=
  ["alias", "trade_name", "fantasy_name", "nome_fantasia"]

/-- `_pick_razao_social`. -/
def pick_razao_social (data : JVal) : Except String String := do
  let c ← pyGet (pyOr data (.jobj [])) "company"
  let company := pyOr c (.jobj [])
  let r1 ← pickFirstStr company razaoKeys
  if r1 ≠ "" then pure r1
  else pickFirstStr company razaoFallbackKeys

/-! ### The SQLite cache (`_cache_get` / `_cache_set`) -/

/-- One row of the `cnpja_cache` table; TEXT/INTEGER columns are nullable. -/
structure CacheRow where
  razao_social : Option String
  simples_nacional : Option String
  simei : Option String
  data_consulta : Option String
  fetched_at : Option Int
deriving DecidableEq

/-- The cache table: key (the CNPJ) to row. -/
def Db : Type := List (String × CacheRow)

instance : DecidableEq Db := inferInstanceAs (DecidableEq (List (String × CacheRow)))

/-- Key lookup in the cache table. -/
def dbLookup (db : Db) (k : String) : Option CacheRow :=
  List.lookup k db

/-- Upsert (`INSERT ... ON CONFLICT(cnpj) DO UPDATE`). -/
def dbUpsert (db : Db) (k : String) (row : CacheRow) : Db :=
  (k, row) :: db.filter (fun p => p.1 ≠ k)

/-- The result record `consultar_optante` returns (the Python dict, with
`_cached` as the `cached` field). -/
structure ConsultaResult where
  cnpj : String
  razao_social : String
  simples_nacional : String
  simei : String
  data_consulta : String
  erro : String
  cached : Bool
deriving DecidableEq

/-- `_cache_get(cnpj, cache_path, ttl_seconds)` at wall-clock `now_ts`. -/
def cache_get (db : Db) (cnpj : String) (ttl_seconds : Int) (now_ts : Int) :
    Option ConsultaResult :=
  match dbLookup db cnpj with
  | none => none
  | some row =>
      let fetched_at := row.fetched_at.getD 0
      if ttl_seconds > 0 ∧ fetched_at > 0 ∧ (now_ts - fetched_at) > ttl_seconds then
        none
      else
        some
          { cnpj := cnpj
            razao_social := row.razao_social.getD ""
            simples_nacional := row.simples_nacional.getD ""
            simei := row.simei.getD ""
            data_consulta := row.data_consulta.getD ""
            erro := ""
            cached := true }

/-- `_cache_set(payload, cache_path)` at wall-clock `now_ts`: no-op unless the
payload's CNPJ is a valid 14-digit string. -/
def cache_set (db : Db) (payload : ConsultaResult) (now_ts : Int) : Db :=
  if isValid14 payload.cnpj then
    dbUpsert db payload.cnpj
      { razao_social := some payload.razao_social
        simples_nacional := some payload.simples_nacional
        simei := some payload.simei
        data_consulta := some payload.data_consulta
        fetched_at := some now_ts }
  else db

/-! ### The lookup client `consultar_optante` -/

/-- Outcome of one `requests.get` attempt: either a response (status code,
parsed `Retry-After` header, parsed JSON body) or a raised
`requests.RequestException` (network error, timeout, undecodable body).
`retryAfter = none` stands for an absent, empty or unparseable header. -/
inductive HttpOutcome where
  | resp (code : Nat) (retryAfter : Option Int) (body : JVal)
  | netError (msg : String)

/-- Ambient world of one `consultar_optante` call: the outcome of the i-th
attempt (1-based), the `datetime.now()` string taken at entry, and the
`time.time()` readings at the cache read and the cache write. -/
structure Env where
  outcomes : Nat → HttpOutcome
  now : String
  nowTs : Int
  setTs : Int

/-- Observable side effects of one lookup: `requests.get` calls, the
`time.sleep` durations in order, and `_cache_set` invocations. -/
structure Trace where
  netCalls : Nat
  sleeps : List Int
  cacheWrites : Nat
deriving DecidableEq

/-- Prefix a completed attempt's side effects onto a later outcome. -/
def withStep (st : Trace) :
    Except String (ConsultaResult × Db × Trace) →
      Except String (ConsultaResult × Db × Trace) :=
  Except.map fun x =>
    (x.1, x.2.1,
      { netCalls := st.netCalls + x.2.2.netCalls
        sleeps := st.sleeps ++ x.2.2.sleeps
        cacheWrites := st.cacheWrites + x.2.2.cacheWrites })

/-- A failure record: empty payload fields, the entry timestamp, the message. -/
def mkFail (cnpj now err : String) : ConsultaResult :=
  { cnpj := cnpj, razao_social := "", simples_nacional := "", simei := "",
    data_consulta := now, erro := err, cached := false }

/-- The rate-limit message stored in `last_err` on HTTP 429. -/
def rateLimitMsg : String :=
  "Rate limit excedido (API pública: 5 consultas/min). Vou aguardar e tentar novamente."

/-- The invalid-identifier message. -/
def invalidCnpjMsg : String := "CNPJ inválido (precisa ter 14 dígitos)"

/-- First-truthy `or`-chain of two fallible reads (`a or b`). -/
def orChain2 (a b : Except String JVal) : Except String JVal := do
  let x ← a
  if truthy x then pure x else b

/-- First-truthy `or`-chain of three fallible reads. -/
def orChain3 (a b c : Except String JVal) : Except String JVal :=
  orChain2 a (orChain2 b c)

/-- First-truthy `or`-chain of four fallible reads. -/
def orChain4 (a b c d : Except String JVal) : Except String JVal :=
  orChain2 a (orChain2 b (orChain2 c d))

/-- The HTTP-200 branch of `consultar_optante`: `data = r.json() or {}`, the
`company`/`simples`/`simei` reads, name and flag extraction, and the payload.
Errors are the uncaught `AttributeError`s from `.get` on non-dict values. -/
def parse200 (body : JVal) (cnpjClean now : String) : Except String ConsultaResult := do
  let data := pyOr body (.jobj [])
  let c0 ← pyGet data "company"
  let company := pyOr c0 (.jobj [])
  let simples_obj ← orChain3 (pyGet company "simples") (pyGet company "simples_nacional")
      (pyGet data "simples")
  let simei_obj ← orChain4 (pyGet company "simei") (pyGet company "mei")
      (pyGet data "simei") (pyGet data "mei")
  let razao ← pick_razao_social data
  pure
    { cnpj := cnpjClean
      razao_social := razao
      simples_nacional := extract_optant_flag simples_obj
      simei := extract_optant_flag simei_obj
      data_consulta := now
      erro := ""
      cached := false }

/-- The retry loop of `consultar_optante`. `attempt` is the 1-based attempt
number, `remaining` the attempts still allowed (`attempt < attempts` in the
source is `remaining ≥ 2` here), `lastErr` the accumulated `last_err`.
`remaining = 0` is the fall-through after the loop. -/
def consultaLoop (env : Env) (use_cache : Bool) (db : Db) (c : String) :
    Nat → Nat → String → Except String (ConsultaResult × Db × Trace)
  | _, 0, lastErr =>
      .ok (mkFail c env.now (if lastErr = "" then "Falha desconhecida" else lastErr),
        db, ⟨0, [], 0⟩)
  | attempt, r + 1, _ =>
      match env.outcomes attempt with
      | .netError msg =>
          let err := "Erro de rede: " ++ msg
          match r with
          | 0 => .ok (mkFail c env.now err, db, ⟨1, [], 0⟩)
          | r' + 1 =>
              withStep ⟨1, [min 15 ((2 : Int) ^ attempt)], 0⟩
                (consultaLoop env use_cache db c (attempt + 1) (r' + 1) err)
      | .resp code ra body =>
          if code = 429 then
            match r with
            | 0 => .ok (mkFail c env.now rateLimitMsg, db, ⟨1, [], 0⟩)
            | r' + 1 =>
                withStep ⟨1, [max 1 (min 90 (ra.getD 60))], 0⟩
                  (consultaLoop env use_cache db c (attempt + 1) (r' + 1) rateLimitMsg)
          else if 500 ≤ code then
            let err := "Erro HTTP " ++ toString code ++ " (servidor) ao consultar CNPJá"
            match r with
            | 0 => .ok (mkFail c env.now err, db, ⟨1, [], 0⟩)
            | r' + 1 =>
                withStep ⟨1, [min 20 ((2 : Int) ^ attempt)], 0⟩
                  (consultaLoop env use_cache db c (attempt + 1) (r' + 1) err)
          else if 400 ≤ code then
            .ok (mkFail c env.now ("Erro HTTP " ++ toString code ++ " ao consultar CNPJá"),
              db, ⟨1, [], 0⟩)
          else
            match parse200 body c env.now with
            | .error e => .error e
            | .ok payload =>
                if use_cache then
                  .ok (payload, cache_set db payload env.setTs, ⟨1, [], 1⟩)
                else
                  .ok (payload, db, ⟨1, [], 0⟩)

/-- `attempts = max(1, int(max_retries))`. -/
def attemptsOf (max_retries : Int) : Nat := (max 1 max_retries).toNat

/-- `consultar_optante(cnpj, use_cache=..., cache_ttl_seconds=..., max_retries=...)`
over the ambient world `env` and cache state `db`. Returns the result record,
the cache state after the call, and the side-effect trace; `.error` is a raised
exception. -/
def consultar_optante (env : Env) (cnpj : String) (use_cache : Bool)
    (cache_ttl_seconds : Int) (max_retries : Int) (db : Db) :
    Except String (ConsultaResult × Db × Trace) :=
  let cnpjClean := clean_cnpj cnpj
  if ¬ isValid14 cnpjClean then
    .ok (mkFail cnpjClean env.now invalidCnpjMsg, db, ⟨0, [], 0⟩)
  else if use_cache then
    match cache_get db cnpjClean cache_ttl_seconds env.nowTs with
    | some r => .ok (r, db, ⟨0, [], 0⟩)
    | none => consultaLoop env true db cnpjClean 1 (attemptsOf max_retries) ""
  else
    consultaLoop env false db cnpjClean 1 (attemptsOf max_retries) ""

/-! ### Success classification for the error-string convention -/

/-- Whether the bounded retry scan starting at `attempt` with `remaining`
attempts left reaches an HTTP success. -/
def okWithin (env : Env) : Nat → Nat → Bool
  | _, 0 => false
  | attempt, r + 1 =>
      match env.outcomes attempt with
      | .netError _ => okWithin env (attempt + 1) r
      | .resp code _ _ =>
          if code = 429 then okWithin env (attempt + 1) r
          else if 500 ≤ code then okWithin env (attempt + 1) r
          else if 400 ≤ code then false
          else true

/-- A 200 body the parser digests without raising: the body is an object (or
falsy), and its `company` field, when present, is an object (or falsy). -/
def bodyWF (body : JVal) : Bool :=
  match pyOr body (.jobj []) with
  | .jobj fields =>
      match fields.lookup "company" with
      | some c =>
          match pyOr c (.jobj []) with
          | .jobj _ => true
          | _ => false
      | none => true
  | _ => false

/-- An attempt outcome that cannot raise out of `consultar_optante`:
anything but a sub-400 response with an ill-formed body. -/
def outcomeWF : HttpOutcome → Bool
  | .netError _ => true
  | .resp code _ body => if code < 400 ∧ code ≠ 429 then bodyWF body else true

/-- Success of a whole lookup: valid identifier and either a fresh cache hit
or a success within the allowed attempts. -/
def lookupSuccess (env : Env) (cnpj : String) (use_cache : Bool)
    (cache_ttl_seconds : Int) (max_retries : Int) (db : Db) : Bool :=
  let c := clean_cnpj cnpj
  if ¬ isValid14 c then false
  else if use_cache ∧ (cache_get db c cache_ttl_seconds env.nowTs).isSome then true
  else okWithin env 1 (attemptsOf max_retries)

/-! ### The batch runner `consultar_optante_lote` -/

/-- A row appended to `resultados` (the result dict after `r.pop("_cached")`). -/
structure ResultRow where
  cnpj : String
  razao_social : String
  simples_nacional : String
  simei : String
  data_consulta : String
  erro : String
deriving DecidableEq

/-- Drop the transient `_cached` flag. -/
def ConsultaResult.toRow (r : ConsultaResult) : ResultRow :=
  { cnpj := r.cnpj, razao_social := r.razao_social,
    simples_nacional := r.simples_nacional, simei := r.simei,
    data_consulta := r.data_consulta, erro := r.erro }

/-- `PUBLIC_API_MIN_DELAY = 12.5`. -/
def PUBLIC_API_MIN_DELAY : ℚ := 25 / 2

/-- Observable behaviour of one batch run: the appended result rows, every
`(done, total)` pair handed to `_tick`, the subset actually delivered to a
possibly-raising `progress_cb`, and the `time.sleep` durations. -/
structure LoteTrace where
  resultados : List ResultRow
  events : List (Nat × Nat)
  delivered : List (Nat × Nat)
  sleeps : List ℚ
deriving DecidableEq

/-- Trace concatenation in chronological order. -/
def LoteTrace.app (a b : LoteTrace) : LoteTrace :=
  { resultados := a.resultados ++ b.resultados
    events := a.events ++ b.events
    delivered := a.delivered ++ b.delivered
    sleeps := a.sleeps ++ b.sleeps }

/-- The empty trace. -/
def LoteTrace.nil : LoteTrace := ⟨[], [], [], []⟩

/-- One `_tick()`: the `(done, total)` invocation, delivered unless the
callback raises (`cbFails`), the exception being swallowed. -/
def tickTrace (cbFails : Nat → Nat → Bool) (done total : Nat) : LoteTrace :=
  { resultados := [], events := [(done, total)]
    delivered := if cbFails done total then [] else [(done, total)]
    sleeps := [] }

/-- The synthesized record for one invalid row (`erro = invalidCnpjMsg`);
an invalid row is its `(cnpj, cnpj_input)` cell pair. -/
def invalidRecord (invNow : Nat → String) (idx : Nat) (row : String × String) : ResultRow :=
  { cnpj := if row.1 ≠ "" then row.1 else row.2
    razao_social := "", simples_nacional := "", simei := ""
    data_consulta := invNow idx
    erro := invalidCnpjMsg }

/-- The post-loop `for _, row in invalidos.iterrows()` loop: append one error
record per invalid row, bump `done`, `_tick()`. -/
def invLoop (cbFails : Nat → Nat → Bool) (invNow : Nat → String) (total : Nat) :
    Nat → Nat → List (String × String) → LoteTrace
  | _, _, [] => LoteTrace.nil
  | idx, done, row :: rest =>
      LoteTrace.app
        { resultados := [invalidRecord invNow idx row]
          events := [(done + 1, total)]
          delivered := if cbFails (done + 1) total then [] else [(done + 1, total)]
          sleeps := [] }
        (invLoop cbFails invNow total (idx + 1) (done + 1) rest)

/-- After the identifier loop: `should_cancel()` is polled once more (call
index `j`); when it is false the invalid rows are appended, when it is true
they are dropped. -/
def lotePost (sc : Nat → Bool) (cbFails : Nat → Nat → Bool) (invNow : Nat → String)
    (total : Nat) (invs : List (String × String)) (j done : Nat) : LoteTrace :=
  if sc j then LoteTrace.nil
  else invLoop cbFails invNow total 1 done invs

/-- The identifier loop. `oracle i c` is the record `consultar_optante(c)`
returns for the i-th processed identifier; `sc i` is the value of the i-th
`should_cancel()` poll; `i` is the next poll index, `done` the processed
count. A non-cache-hit lookup is followed by `time.sleep(max(0.0, s))`. -/
def loteLoop (oracle : Nat → String → ConsultaResult) (sc : Nat → Bool)
    (cbFails : Nat → Nat → Bool) (invNow : Nat → String) (total : Nat) (s : ℚ)
    (invs : List (String × String)) :
    List String → Nat → Nat → LoteTrace
  | [], i, done => lotePost sc cbFails invNow total invs i done
  | c :: rest, i, done =>
      if sc i then lotePost sc cbFails invNow total invs (i + 1) done
      else
        let r := oracle i c
        LoteTrace.app
          { resultados := [r.toRow]
            events := [(done + 1, total)]
            delivered := if cbFails (done + 1) total then [] else [(done + 1, total)]
            sleeps := if r.cached then [] else [max 0 s] }
          (loteLoop oracle sc cbFails invNow total s invs rest (i + 1) (done + 1))

/-- `consultar_optante_lote(df_validos, sleep_seconds, progress_cb,
should_cancel)`: clamp the delay to `PUBLIC_API_MIN_DELAY`, emit the initial
`_tick()`, run the identifier loop, then handle the invalid rows. -/
def consultar_optante_lote (oracle : Nat → String → ConsultaResult)
    (sc : Nat → Bool) (cbFails : Nat → Nat → Bool) (invNow : Nat → String)
    (cnpjs : List String) (invs : List (String × String))
    (sleep_seconds : ℚ) : LoteTrace :=
  let total := cnpjs.length + invs.length
  let s := max PUBLIC_API_MIN_DELAY sleep_seconds
  LoteTrace.app (tickTrace cbFails 0 total)
    (loteLoop oracle sc cbFails invNow total s invs cnpjs 1 0)

/-- The lookup rows of a list of identifiers starting at poll index `i`. -/
def lookupRows (oracle : Nat → String → ConsultaResult) :
    Nat → List String → List ResultRow
  | _, [] => []
  | i, c :: rest => (oracle i c).toRow :: lookupRows oracle (i + 1) rest

/-- The `(poll index, identifier)` pairs the loop actually processes before
the first true `should_cancel()` poll. -/
def processedOf (sc : Nat → Bool) : List String → Nat → List (Nat × String)
  | [], _ => []
  | c :: rest, i => if sc i then [] else (i, c) :: processedOf sc rest (i + 1)

/-! ### Jobs (`app/main.py`) -/

/-- One entry of the in-memory `JOBS` table. `cancel_set` is the
`threading.Event`'s flag as the cancel endpoint leaves it. -/
structure Job where
  status : String
  progress : Nat
  total : Nat
  done : Bool
  file_bytes : Option (List ResultRow)
  file_name : String
  error : Option String
  cancel_set : Bool
deriving DecidableEq

/-- The job record `criar_lote` installs. -/
def initJob (cnpjs : List String) (invs : List (String × String)) (output : String) : Job :=
  { status := "queued", progress := 0, total := cnpjs.length + invs.length,
    done := false, file_bytes := none, file_name := "resultado." ++ output,
    error := none, cancel_set := false }

/-- Apply the delivered progress callbacks: each sets `total` then `progress`. -/
def applyProgress (job : Job) (ev : List (Nat × Nat)) : Job :=
  ev.foldl (fun j p => { j with total := p.2, progress := p.1 }) job

/-- Drop maximal runs of `'D'`s. -/
def dropDs : List Char → List Char
  | 'D' :: t => dropDs t
  | l => l

/-- `str.replace(r"\\D+", "", regex=True)`: the pattern matches a literal
backslash followed by one or more `'D'` characters, so only such runs are
removed. -/
def stripBslashD : List Char → List Char
  | [] => []
  | '\\' :: 'D' :: t => stripBslashD (dropDs t)
  | '\\' :: c :: t => '\\' :: stripBslashD (c :: t)
  | ['\\'] => ['\\']
  | c :: t => c :: stripBslashD t
termination_by l => l.length
decreasing_by
  all_goals simp only [List.length_cons]
  all_goals try omega
  all_goals
    have hle : ∀ l : List Char, (dropDs l).length ≤ l.length := by
      intro l
      induction l with
      | nil => simp [dropDs]
      | cons c t2 ih =>
          by_cases h : c = 'D'
          · subst h
            have e : dropDs ('D' :: t2) = dropDs t2 := rfl
            rw [e]
            exact Nat.le_succ_of_le ih
          · have e : dropDs (c :: t2) = c :: t2 := by
              unfold dropDs
              split
              · rename_i t3 heq
                injection heq with h1 h2
                exact absurd h1 h
              · rfl
            rw [e]
    have h9 := hle t
    omega

/-- Python `str.zfill(14)` on the digit strings this code feeds it. -/
def zfill14 (s : String) : String :=
  if s.length ≥ 14 then s else ⟨List.replicate (14 - s.length) '0' ++ s.data⟩

/-- `build_output_bytes`: the emitted rows, with the `cnpj` column passed
through the (ineffective) regex replacement and `zfill(14)`. -/
def build_output_bytes (rows : List ResultRow) : List ResultRow :=
  rows.map fun r => { r with cnpj := zfill14 ⟨stripBslashD r.cnpj.data⟩ }

/-- The tail of `processar_job`: store the output bytes, set `done`, and pick
the final status from the cancellation flag (`cancelSet` is
`cancel_event.is_set()` at finalization time). -/
def processar_finalize (job : Job) (rows : List ResultRow) (cancelSet : Bool) : Job :=
  let j1 := { job with file_bytes := some (build_output_bytes rows), done := true }
  if cancelSet then { j1 with status := "canceled" }
  else { j1 with status := "done", progress := j1.total }

/-- `processar_job` for a run whose batch loop returns: set `running`, apply
the delivered progress callbacks, then finalize. The cancellation flag is
re-read at poll index `finIdx` (some index after every loop poll). -/
def run_job (oracle : Nat → String → ConsultaResult) (sc : Nat → Bool)
    (cbFails : Nat → Nat → Bool) (invNow : Nat → String)
    (cnpjs : List String) (invs : List (String × String)) (s : ℚ)
    (output : String) (finIdx : Nat) : Job :=
  let tr := consultar_optante_lote oracle sc cbFails invNow cnpjs invs s
  let j := applyProgress { initJob cnpjs invs output with status := "running" } tr.delivered
  processar_finalize j tr.resultados (sc finIdx)

/-- The `/download` guard: `409` unless `done` and bytes present. -/
def download_available (j : Job) : Bool :=
  j.done && j.file_bytes.isSome

/-- The body of the `/cancel/{job_id}` endpoint. -/
structure CancelResp where
  ok : Bool
  status : String
deriving DecidableEq

/-- `cancelar`: no-op returning the current status when the job is done;
otherwise set the cancellation event and move `queued`/`running` to
`canceling`, answering `"canceling"`. -/
def cancelar (job : Job) : Job × CancelResp :=
  if job.done then (job, { ok := true, status := job.status })
  else
    let j1 := { job with cancel_set := true }
    let j2 :=
      if j1.status = "queued" ∨ j1.status = "running" then { j1 with status := "canceling" }
      else j1
    (j2, { ok := true, status := "canceling" })

/-- `m` consecutive `(done, total)` progress events starting after `done`:
`(done+1, total), …, (done+m, total)`. -/
def consecEvents (total : Nat) : Nat → Nat → List (Nat × Nat)
  | _, 0 => []
  | done, m + 1 => (done + 1, total) :: consecEvents total (done + 1) m

/-! ### Concrete worlds, caches and jobs used by the closed theorems -/

/-- A world answering 429 with `Retry-After: 1000` on every attempt. -/
def env429w : Env := ⟨fun _ => .resp 429 (some 1000) .jnull, "T", 0, 0⟩

/-- A cache with one fresh entry whose stored timestamp is old. -/
def dbHit : Db :=
  [("12345678000195",
    ⟨some "ACME", some "Sim", some "Não", some "2020-01-01 00:00:00", some 100⟩)]

/-- A world whose entry time differs from the cached `data_consulta`. -/
def envHit : Env := ⟨fun _ => .netError "unused", "2025-06-01 10:00:00", 200, 200⟩

/-- The cache-hit record `consultar_optante` returns from `dbHit`. -/
def rHitW : ConsultaResult :=
  ⟨"12345678000195", "ACME", "Sim", "Não", "2020-01-01 00:00:00", "", true⟩

/-- A world that fails with a network error on every attempt. -/
def envNetW : Env := ⟨fun _ => .netError "timeout", "T", 0, 0⟩

/-- A world answering 200 with the JSON body `"x"` (a truthy non-object). -/
def envBadBody : Env := ⟨fun _ => .resp 200 none (.jstr "x"), "T", 0, 0⟩

/-- A successful-lookup payload with a valid key. -/
def payW : ConsultaResult := ⟨"12345678000195", "ACME", "Sim", "Não", "T0", "", false⟩

/-- A monotone cancellation signal first true at poll 2. -/
def sc2w : Nat → Bool := fun i => decide (2 ≤ i)

/-- A finished job. -/
def jobDoneW : Job := ⟨"done", 3, 3, true, some [], "resultado.csv", none, false⟩

/-- A running, not-yet-done job. -/
def jobRunW : Job := ⟨"running", 1, 3, false, none, "resultado.csv", none, false⟩

/-! ### Helper lemmas -/

theorem str_append_ne_empty_left (a b : String) (h : a ≠ "") : a ++ b ≠ "" := by
  intro hEq
  apply h
  have hd : a.data ++ b.data = [] := by
    have := congrArg String.data hEq
    simpa [String.data_append] using this
  have ha : a.data = [] := (List.append_eq_nil.mp hd).1
  cases a
  simp_all

theorem except_bind_ok {α β γ : Type} {a : Except γ α} {f : α → Except γ β} {r : β}
    (h : a.bind f = .ok r) : ∃ x, a = .ok x ∧ f x = .ok r := by
  cases a with
  | error e => simp [Except.bind] at h
  | ok x => exact ⟨x, rfl, h⟩

theorem pyGet_jobj (fs : List (String × JVal)) (k : String) :
    pyGet (.jobj fs) k = .ok ((fs.lookup k).getD .jnull) := rfl

theorem pickFirstStr_ok (fs : List (String × JVal)) :
    ∀ ks, ∃ s, pickFirstStr (.jobj fs) ks = .ok s := by
  intro ks
  induction ks with
  | nil => exact ⟨"", rfl⟩
  | cons k ks ih =>
      obtain ⟨s, hs⟩ := ih
      simp only [pickFirstStr, pyGet_jobj, bind, Except.bind]
      cases hv : (fs.lookup k).getD .jnull with
      | jstr str =>
          by_cases ht : str.trim ≠ ""
          · exact ⟨str.trim, by simp [ht, pure, Except.pure]⟩
          · exact ⟨s, by simp [ht, hs]⟩
      | jnull => exact ⟨s, hs⟩
      | jbool b => exact ⟨s, hs⟩
      | jnum n => exact ⟨s, hs⟩
      | jarr l => exact ⟨s, hs⟩
      | jobj l => exact ⟨s, hs⟩

theorem orChain2_ok {x y : JVal} {a b : Except String JVal}
    (ha : a = .ok x) (hb : b = .ok y) : ∃ z, orChain2 a b = .ok z := by
  subst ha
  by_cases ht : truthy x
  · exact ⟨x, by simp [orChain2, ht, bind, Except.bind, pure, Except.pure]⟩
  · exact ⟨y, by simp [orChain2, ht, bind, Except.bind, hb]⟩

theorem pick_razao_social_ok (dfs : List (String × JVal))
    (hc : match (dfs.lookup "company").getD .jnull with
          | v => ∃ cfs, pyOr v (.jobj []) = .jobj cfs) :
    ∃ s, pick_razao_social (.jobj dfs) = .ok s := by
  obtain ⟨cfs, hcfs⟩ := hc
  have hdata : pyOr (JVal.jobj dfs) (.jobj []) = .jobj dfs := by
    by_cases h : truthy (JVal.jobj dfs) <;> simp [pyOr, h]
    · cases dfs with
      | nil => rfl
      | cons p t => simp [truthy] at h
  obtain ⟨s1, hs1⟩ := pickFirstStr_ok cfs razaoKeys
  obtain ⟨s2, hs2⟩ := pickFirstStr_ok cfs razaoFallbackKeys
  by_cases h1 : s1 ≠ ""
  · exact ⟨s1, by simp [pick_razao_social, hdata, pyGet_jobj, bind, Except.bind, hcfs,
      hs1, h1, pure, Except.pure]⟩
  · exact ⟨s2, by simp [pick_razao_social, hdata, pyGet_jobj, bind, Except.bind, hcfs,
      hs1, h1, hs2, pure, Except.pure]⟩

theorem parse200_fields {body : JVal} {c now : String} {r : ConsultaResult}
    (h : parse200 body c now = .ok r) :
    r.cnpj = c ∧ r.data_consulta = now ∧ r.erro = "" ∧ r.cached = false := by
  simp only [parse200, bind, Except.bind] at h
  rcases h1 : pyGet (pyOr body (.jobj [])) "company" with e | c0
  · simp only [h1] at h
    cases h
  simp only [h1] at h
  rcases h2 : orChain3 (pyGet (pyOr c0 (.jobj [])) "simples")
      (pyGet (pyOr c0 (.jobj [])) "simples_nacional")
      (pyGet (pyOr body (.jobj [])) "simples") with e | so
  · simp only [h2] at h
    cases h
  simp only [h2] at h
  rcases h3 : orChain4 (pyGet (pyOr c0 (.jobj [])) "simei") (pyGet (pyOr c0 (.jobj [])) "mei")
      (pyGet (pyOr body (.jobj [])) "simei") (pyGet (pyOr body (.jobj [])) "mei") with e | mo
  · simp only [h3] at h
    cases h
  simp only [h3] at h
  rcases h4 : pick_razao_social (pyOr body (.jobj [])) with e | ra
  · simp only [h4] at h
    cases h
  simp only [h4] at h
  simp only [pure, Except.pure, Except.ok.injEq] at h
  subst h
  exact ⟨rfl, rfl, rfl, rfl⟩

theorem orChain3_ok {x y z : JVal} {a b c : Except String JVal}
    (ha : a = .ok x) (hb : b = .ok y) (hc : c = .ok z) :
    ∃ w, orChain3 a b c = .ok w := by
  obtain ⟨w1, hw1⟩ := orChain2_ok hb hc
  unfold orChain3
  exact orChain2_ok ha hw1

theorem orChain4_ok {x y z u : JVal} {a b c d : Except String JVal}
    (ha : a = .ok x) (hb : b = .ok y) (hc : c = .ok z) (hd : d = .ok u) :
    ∃ w, orChain4 a b c d = .ok w := by
  obtain ⟨w1, hw1⟩ := orChain2_ok hc hd
  obtain ⟨w2, hw2⟩ := orChain2_ok hb hw1
  unfold orChain4
  exact orChain2_ok ha hw2

theorem parse200_ok {body : JVal} (c now : String) (hWF : bodyWF body = true) :
    ∃ r, parse200 body c now = .ok r := by
  unfold bodyWF at hWF
  rcases hd : pyOr body (.jobj []) with _ | b | n | s | l | fields
  all_goals rw [hd] at hWF
  all_goals try simp at hWF
  have hcompany : ∃ cfs, pyOr ((fields.lookup "company").getD .jnull) (.jobj []) = .jobj cfs := by
    rcases hl : fields.lookup "company" with _ | cv
    · simp only [hl, Option.getD]
      exact ⟨[], by simp [pyOr, truthy]⟩
    · simp only [hl, Option.getD] at hWF ⊢
      rcases hcv : pyOr cv (.jobj []) with _ | _ | _ | _ | _ | cfs
      all_goals rw [hcv] at hWF
      all_goals try simp at hWF
      exact ⟨cfs, rfl⟩
  obtain ⟨cfs, hcfs⟩ := hcompany
  obtain ⟨z2, hz2⟩ := orChain3_ok (pyGet_jobj cfs "simples") (pyGet_jobj cfs "simples_nacional")
    (pyGet_jobj fields "simples")
  obtain ⟨z3, hz3⟩ := orChain4_ok (pyGet_jobj cfs "simei") (pyGet_jobj cfs "mei")
    (pyGet_jobj fields "simei") (pyGet_jobj fields "mei")
  obtain ⟨ra, hra⟩ := pick_razao_social_ok fields ⟨cfs, hcfs⟩
  simp only [pyGet_jobj] at hz2 hz3
  refine ⟨⟨c, ra, extract_optant_flag z2, extract_optant_flag z3, now, "", false⟩, ?_⟩
  simp only [parse200, bind, Except.bind, hd, pyGet_jobj, hcfs, hz2, hz3, hra, pure, Except.pure]

theorem cache_get_some {db : Db} {c : String} {ttl ts : Int} {r : ConsultaResult}
    (h : cache_get db c ttl ts = some r) :
    ∃ row, dbLookup db c = some row ∧
      r = { cnpj := c, razao_social := row.razao_social.getD "",
            simples_nacional := row.simples_nacional.getD "",
            simei := row.simei.getD "", data_consulta := row.data_consulta.getD "",
            erro := "", cached := true } := by
  unfold cache_get at h
  rcases hl : dbLookup db c with _ | row
  · simp only [hl] at h
    exact Option.noConfusion h
  · simp only [hl] at h
    split at h
    · cases h
    · injection h with h
      exact ⟨row, rfl, h.symm⟩

theorem withStep_ok {st : Trace} {e : Except String (ConsultaResult × Db × Trace)}
    {r : ConsultaResult} {db' : Db} {t : Trace}
    (h : withStep st e = .ok (r, db', t)) :
    ∃ t0, e = .ok (r, db', t0) ∧
      t = ⟨st.netCalls + t0.netCalls, st.sleeps ++ t0.sleeps, st.cacheWrites + t0.cacheWrites⟩ := by
  cases e with
  | error err => simp [withStep, Except.map] at h
  | ok x =>
      obtain ⟨r0, db0, t0⟩ := x
      simp only [withStep, Except.map, Except.ok.injEq, Prod.mk.injEq] at h
      obtain ⟨rfl, rfl, rfl⟩ := h
      exact ⟨t0, rfl, rfl⟩

theorem consultaLoop_fields (env : Env) (uc : Bool) (c : String) :
    ∀ remaining attempt lastErr (db : Db) r db' t,
      consultaLoop env uc db c attempt remaining lastErr = .ok (r, db', t) →
      r.cached = false ∧ r.data_consulta = env.now := by
  intro remaining
  induction remaining with
  | zero =>
      intro attempt lastErr db r db' t h
      simp only [consultaLoop] at h
      injection h with h
      have hr : mkFail c env.now (if lastErr = "" then "Falha desconhecida" else lastErr) = r :=
        congrArg Prod.fst h
      rw [← hr]
      exact ⟨rfl, rfl⟩
  | succ rr ih =>
      intro attempt lastErr db r db' t h
      rcases ho : env.outcomes attempt with ⟨code, ra, body⟩ | ⟨msg⟩
      · rw [consultaLoop.eq_def] at h
        simp only [ho] at h
        by_cases h429 : code = 429
        · simp only [h429, if_pos rfl] at h
          cases rr with
          | zero =>
              injection h with h
              have hr : mkFail c env.now rateLimitMsg = r := congrArg Prod.fst h
              rw [← hr]; exact ⟨rfl, rfl⟩
          | succ r' =>
              obtain ⟨t0, hrec, _⟩ := withStep_ok h
              exact ih _ _ _ _ _ _ hrec
        · simp only [if_neg h429] at h
          by_cases h500 : 500 ≤ code
          · simp only [if_pos h500] at h
            cases rr with
            | zero =>
                injection h with h
                have hr : _ = r := congrArg Prod.fst h
                rw [← hr]; exact ⟨rfl, rfl⟩
            | succ r' =>
                obtain ⟨t0, hrec, _⟩ := withStep_ok h
                exact ih _ _ _ _ _ _ hrec
          · simp only [if_neg h500] at h
            by_cases h400 : 400 ≤ code
            · simp only [if_pos h400] at h
              injection h with h
              have hr : _ = r := congrArg Prod.fst h
              rw [← hr]; exact ⟨rfl, rfl⟩
            · simp only [if_neg h400] at h
              rcases hp : parse200 body c env.now with e | payload
              · rw [hp] at h; cases h
              · rw [hp] at h
                obtain ⟨_, hdc, _, hcf⟩ := parse200_fields hp
                have hr : payload = r := by
                  by_cases huc : uc
                  · simp only [huc, if_pos rfl] at h
                    injection h with h
                    exact congrArg Prod.fst h
                  · simp only [huc] at h
                    injection h with h
                    exact congrArg Prod.fst h
                rw [← hr]
                exact ⟨hcf, hdc⟩
      · rw [consultaLoop.eq_def] at h
        simp only [ho] at h
        cases rr with
        | zero =>
            injection h with h
            have hr : _ = r := congrArg Prod.fst h
            rw [← hr]; exact ⟨rfl, rfl⟩
        | succ r' =>
            obtain ⟨t0, hrec, _⟩ := withStep_ok h
            exact ih _ _ _ _ _ _ hrec

theorem consultaLoop_ok (env : Env) (uc : Bool) (c : String)
    (hWF : ∀ a, outcomeWF (env.outcomes a) = true) :
    ∀ remaining attempt lastErr (db : Db), ∃ r db' t,
      consultaLoop env uc db c attempt remaining lastErr = .ok (r, db', t)
      ∧ (r.erro = "" ↔ okWithin env attempt remaining = true) := by
  intro remaining
  induction remaining with
  | zero =>
      intro attempt lastErr db
      refine ⟨mkFail c env.now (if lastErr = "" then "Falha desconhecida" else lastErr),
        db, ⟨0, [], 0⟩, rfl, iff_of_false ?_ (by simp [okWithin])⟩
      show (if lastErr = "" then "Falha desconhecida" else lastErr) ≠ ""
      split
      · decide
      · assumption
  | succ rr ih =>
      intro attempt lastErr db
      rcases ho : env.outcomes attempt with ⟨code, ra, body⟩ | ⟨msg⟩
      · by_cases h429 : code = 429
        · subst h429
          have hok : okWithin env attempt (rr + 1) = okWithin env (attempt + 1) rr := by
            simp [okWithin, ho]
          cases rr with
          | zero =>
              refine ⟨mkFail c env.now rateLimitMsg, db, ⟨1, [], 0⟩, ?_, ?_⟩
              · rw [consultaLoop.eq_def]
                simp [ho]
              · refine iff_of_false (by show rateLimitMsg ≠ ""; decide) ?_
                rw [hok]
                simp [okWithin]
          | succ r' =>
              obtain ⟨r0, db0, t0, heq, hiff⟩ := ih (attempt + 1) rateLimitMsg db
              have hstep : consultaLoop env uc db c attempt (r' + 1 + 1) lastErr =
                  withStep ⟨1, [max 1 (min 90 (ra.getD 60))], 0⟩
                    (consultaLoop env uc db c (attempt + 1) (r' + 1) rateLimitMsg) := by
                rw [consultaLoop.eq_def]
                simp [ho]
              rw [hstep, heq]
              exact ⟨_, _, _, rfl, by rw [hok]; exact hiff⟩
        · by_cases h500 : 500 ≤ code
          · have hok : okWithin env attempt (rr + 1) = okWithin env (attempt + 1) rr := by
              simp [okWithin, ho, h429, h500]
            cases rr with
            | zero =>
                refine ⟨mkFail c env.now
                    ("Erro HTTP " ++ toString code ++ " (servidor) ao consultar CNPJá"),
                  db, ⟨1, [], 0⟩, ?_, ?_⟩
                · rw [consultaLoop.eq_def]
                  simp [ho, h429, h500]
                · refine iff_of_false
                    (str_append_ne_empty_left _ _ (str_append_ne_empty_left _ _ (by decide))) ?_
                  rw [hok]
                  simp [okWithin]
            | succ r' =>
                obtain ⟨r0, db0, t0, heq, hiff⟩ := ih (attempt + 1)
                  ("Erro HTTP " ++ toString code ++ " (servidor) ao consultar CNPJá") db
                have hstep : consultaLoop env uc db c attempt (r' + 1 + 1) lastErr =
                    withStep ⟨1, [min 20 ((2 : Int) ^ attempt)], 0⟩
                      (consultaLoop env uc db c (attempt + 1) (r' + 1)
                        ("Erro HTTP " ++ toString code ++ " (servidor) ao consultar CNPJá")) := by
                  rw [consultaLoop.eq_def]
                  simp [ho, h429, h500]
                rw [hstep, heq]
                exact ⟨_, _, _, rfl, by rw [hok]; exact hiff⟩
          · by_cases h400 : 400 ≤ code
            · refine ⟨mkFail c env.now ("Erro HTTP " ++ toString code ++ " ao consultar CNPJá"),
                db, ⟨1, [], 0⟩, ?_, ?_⟩
              · rw [consultaLoop.eq_def]
                simp [ho, h429, h500, h400]
              · refine iff_of_false
                  (str_append_ne_empty_left _ _ (str_append_ne_empty_left _ _ (by decide))) ?_
                simp [okWithin, ho, h429, h500, h400]
            · have hlt : code < 400 := by omega
              have hbwf : bodyWF body = true := by
                have hw := hWF attempt
                rw [ho] at hw
                simpa [outcomeWF, hlt, h429] using hw
              obtain ⟨payload, hp⟩ := parse200_ok c env.now hbwf
              obtain ⟨_, _, herr, _⟩ := parse200_fields hp
              have hokT : okWithin env attempt (rr + 1) = true := by
                simp [okWithin, ho, h429, h500, h400]
              cases huc : uc with
              | true =>
                  refine ⟨payload, cache_set db payload env.setTs, ⟨1, [], 1⟩, ?_, ?_⟩
                  · rw [consultaLoop.eq_def]
                    simp [ho, h429, h500, h400, hp]
                  · exact iff_of_true herr hokT
              | false =>
                  refine ⟨payload, db, ⟨1, [], 0⟩, ?_, ?_⟩
                  · rw [consultaLoop.eq_def]
                    simp [ho, h429, h500, h400, hp]
                  · exact iff_of_true herr hokT
      · have hok : okWithin env attempt (rr + 1) = okWithin env (attempt + 1) rr := by
          simp [okWithin, ho]
        cases rr with
        | zero =>
            refine ⟨mkFail c env.now ("Erro de rede: " ++ msg), db, ⟨1, [], 0⟩, ?_, ?_⟩
            · rw [consultaLoop.eq_def]
              simp [ho]
            · refine iff_of_false (str_append_ne_empty_left _ _ (by decide)) ?_
              rw [hok]
              simp [okWithin]
        | succ r' =>
            obtain ⟨r0, db0, t0, heq, hiff⟩ := ih (attempt + 1) ("Erro de rede: " ++ msg) db
            have hstep : consultaLoop env uc db c attempt (r' + 1 + 1) lastErr =
                withStep ⟨1, [min 15 ((2 : Int) ^ attempt)], 0⟩
                  (consultaLoop env uc db c (attempt + 1) (r' + 1) ("Erro de rede: " ++ msg)) := by
              rw [consultaLoop.eq_def]
              simp [ho]
            rw [hstep, heq]
            exact ⟨_, _, _, rfl, by rw [hok]; exact hiff⟩

/-! ### Claim C3 -/

/-- C3: for every input whose digit-stripped form is not exactly 14 digits,
`consultar_optante` immediately returns the invalid-identifier error record,
with no network call, no sleep, no retry, no cache write, and an unchanged
cache. -/
theorem consultar_optante_invalid_no_network (env : Env) (cnpj : String)
    (use_cache : Bool) (ttl mr : Int) (db : Db)
    (h : isValid14 (clean_cnpj cnpj) = false) :
    consultar_optante env cnpj use_cache ttl mr db =
      .ok (mkFail (clean_cnpj cnpj) env.now invalidCnpjMsg, db, ⟨0, [], 0⟩) := by
  unfold consultar_optante
  simp [h]

/-- Witness for C3 at the 3-digit input `"123"`. -/
theorem consultar_optante_invalid_no_network_witness :
    isValid14 (clean_cnpj "123") = false ∧
      consultar_optante ⟨fun _ => .netError "t", "N", 0, 0⟩ "123" true 86400 3 [] =
        .ok (mkFail (clean_cnpj "123") "N" invalidCnpjMsg, [], ⟨0, [], 0⟩) :=
  ⟨by decide,
   consultar_optante_invalid_no_network ⟨fun _ => .netError "t", "N", 0, 0⟩ "123" true 86400 3 []
     (by decide)⟩

/-! ### Claim C4 -/

/-- C4: on an HTTP 429 attempt that is not the last allowed one, the client
sleeps `clamp(retry_after, 1, 90)` seconds — `retry_after` defaulting to 60
when the header is absent or unparseable — and retries with `last_err` set to
the rate-limit message; on the last allowed attempt it instead returns the
rate-limit error record. -/
theorem consultar_optante_rate_limit_retry (env : Env) (uc : Bool) (db : Db)
    (c lastErr : String) (attempt : Nat) (ra : Option Int) (body : JVal)
    (henv : env.outcomes attempt = .resp 429 ra body) :
    (∀ r : Nat,
        consultaLoop env uc db c attempt (r + 2) lastErr =
          withStep ⟨1, [max 1 (min 90 (ra.getD 60))], 0⟩
            (consultaLoop env uc db c (attempt + 1) (r + 1) rateLimitMsg)) ∧
      consultaLoop env uc db c attempt 1 lastErr =
        .ok (mkFail c env.now rateLimitMsg, db, ⟨1, [], 0⟩) := by
  constructor
  · intro r
    rw [consultaLoop.eq_def]
    simp [henv]
  · rw [consultaLoop.eq_def]
    simp [henv]

/-- Witness for C4: with `Retry-After: 1000` the clamped sleep is 90 seconds,
and a 429 on the last attempt yields the rate-limit error record. -/
theorem consultar_optante_rate_limit_retry_witness :
    consultaLoop env429w false [] "x" 1 2 "" =
        withStep ⟨1, [max 1 (min 90 ((some (1000 : Int)).getD 60))], 0⟩
          (consultaLoop env429w false [] "x" 2 1 rateLimitMsg) ∧
      consultaLoop env429w false [] "x" 1 1 "" =
        .ok (mkFail "x" "T" rateLimitMsg, [], ⟨1, [], 0⟩) :=
  ⟨(consultar_optante_rate_limit_retry env429w false [] "x" "" 1 (some 1000) .jnull rfl).1 0,
   (consultar_optante_rate_limit_retry env429w false [] "x" "" 1 (some 1000) .jnull rfl).2⟩

/-! ### Claim C9 -/

/-- C9 (amended): every result that is not a cache hit carries the entry
timestamp of this call as `data_consulta`; a cache-hit result instead carries
the stored entry's `data_consulta` (the timestamp of the original lookup),
not the current time. -/
theorem consultar_optante_timestamp (env : Env) (cnpj : String) (uc : Bool)
    (ttl mr : Int) (db : Db) (r : ConsultaResult) (db' : Db) (t : Trace)
    (h : consultar_optante env cnpj uc ttl mr db = .ok (r, db', t)) :
    (r.cached = false → r.data_consulta = env.now) ∧
      (r.cached = true → ∃ row, dbLookup db (clean_cnpj cnpj) = some row ∧
        r.data_consulta = row.data_consulta.getD "") := by
  unfold consultar_optante at h
  by_cases hv : isValid14 (clean_cnpj cnpj) = true
  · simp only [hv, not_true, if_false, Bool.true_eq_false] at h
    cases huc : uc with
    | true =>
        rw [huc] at h
        simp only [if_true] at h
        rcases hcg : cache_get db (clean_cnpj cnpj) ttl env.nowTs with _ | rc
        · simp only [hcg] at h
          have hf := consultaLoop_fields env true (clean_cnpj cnpj) _ _ _ _ _ _ _ h
          refine ⟨fun _ => hf.2, fun hc => ?_⟩
          rw [hf.1] at hc
          cases hc
        · simp only [hcg] at h
          injection h with h
          have hrc : rc = r := congrArg Prod.fst h
          obtain ⟨row, hrow, hval⟩ := cache_get_some hcg
          constructor
          · intro hcf
            rw [← hrc, hval] at hcf
            cases hcf
          · intro _
            exact ⟨row, hrow, by rw [← hrc, hval]⟩
    | false =>
        rw [huc] at h
        simp only [if_false, Bool.false_eq_true] at h
        have hf := consultaLoop_fields env false (clean_cnpj cnpj) _ _ _ _ _ _ _ h
        refine ⟨fun _ => hf.2, fun hc => ?_⟩
        rw [hf.1] at hc
        cases hc
  · have hv' : isValid14 (clean_cnpj cnpj) = false := by
      simpa using hv
    simp only [hv', Bool.false_eq_true, not_false_iff, if_true] at h
    injection h with h
    have hr : _ = r := congrArg Prod.fst h
    refine ⟨fun _ => by rw [← hr]; rfl, fun hc => ?_⟩
    rw [← hr] at hc
    cases hc

/-- Witness for C9 on a concrete cache hit against `dbHit`. -/
theorem consultar_optante_timestamp_witness :
    (rHitW.cached = false → rHitW.data_consulta = envHit.now) ∧
      (rHitW.cached = true → ∃ row, dbLookup dbHit (clean_cnpj "12345678000195") = some row ∧
        rHitW.data_consulta = row.data_consulta.getD "") :=
  consultar_optante_timestamp envHit "12345678000195" true 0 3 dbHit rHitW dbHit ⟨0, [], 0⟩ rfl

/-- C9 counterexample: a cache-hit result carries the stored
`data_consulta` (`"2020-01-01 00:00:00"`), not the current timestamp. -/
theorem cache_hit_returns_cached_timestamp :
    consultar_optante envHit "12345678000195" true 0 3 dbHit =
        .ok (⟨"12345678000195", "ACME", "Sim", "Não", "2020-01-01 00:00:00", "", true⟩,
          dbHit, ⟨0, [], 0⟩) ∧
      ("2020-01-01 00:00:00" : String) ≠ envHit.now := by
  exact ⟨rfl, by decide⟩

/-! ### Claim C1 -/

/-- C1 (amended): provided every attempt outcome is benign — any network
error, any HTTP error status, or a sub-400 response whose JSON body is an
object (or falsy) with object-or-falsy `company` — `consultar_optante` never
raises: it returns a record whose `erro` string is empty exactly on success
(valid identifier and fresh cache hit or in-budget HTTP success) and
non-empty on every failure. A sub-400 response with a truthy non-object body
(or truthy non-object `company`) instead raises `AttributeError`. -/
theorem consultar_optante_total_error_flag (env : Env) (cnpj : String) (uc : Bool)
    (ttl mr : Int) (db : Db)
    (hWF : ∀ a, outcomeWF (env.outcomes a) = true) :
    ∃ r db' t, consultar_optante env cnpj uc ttl mr db = .ok (r, db', t) ∧
      (r.erro = "" ↔ lookupSuccess env cnpj uc ttl mr db = true) := by
  unfold consultar_optante lookupSuccess
  by_cases hv : isValid14 (clean_cnpj cnpj) = true
  · simp only [hv, not_true, Bool.true_eq_false, if_false]
    cases huc : uc with
    | true =>
        simp only [if_true, true_and]
        rcases hcg : cache_get db (clean_cnpj cnpj) ttl env.nowTs with _ | rc
        · simp only [hcg, Option.isSome_none, Bool.false_eq_true, if_false]
          exact consultaLoop_ok env true (clean_cnpj cnpj) hWF (attemptsOf mr) 1 "" db
        · simp only [hcg, Option.isSome_some, if_true]
          obtain ⟨row, hrow, hval⟩ := cache_get_some hcg
          exact ⟨rc, db, ⟨0, [], 0⟩, rfl, iff_of_true (by rw [hval]) trivial⟩
    | false =>
        simp only [if_false, Bool.false_eq_true, false_and]
        exact consultaLoop_ok env false (clean_cnpj cnpj) hWF (attemptsOf mr) 1 "" db
  · have hv' : isValid14 (clean_cnpj cnpj) = false := by simpa using hv
    simp only [hv', Bool.false_eq_true, not_false_iff, if_true]
    exact ⟨mkFail (clean_cnpj cnpj) env.now invalidCnpjMsg, db, ⟨0, [], 0⟩, rfl,
      iff_of_false (by show invalidCnpjMsg ≠ ""; decide) (by simp)⟩

/-- Witness for C1 on an all-network-error world: the lookup returns a record
and its error string is non-empty exactly as classified. -/
theorem consultar_optante_total_error_flag_witness :
    ∃ r db' t, consultar_optante envNetW "12345678000195" false 0 3 [] = .ok (r, db', t) ∧
      (r.erro = "" ↔ lookupSuccess envNetW "12345678000195" false 0 3 [] = true) :=
  consultar_optante_total_error_flag envNetW "12345678000195" false 0 3 [] (fun _ => rfl)

/-- C1 counterexample: a 200 response whose JSON body is the string `"x"`
makes `consultar_optante` raise `AttributeError` (from `data.get("company")`)
instead of returning an error record. -/
theorem consultar_optante_raises_on_nonobject_body :
    consultar_optante envBadBody "12345678000195" false 0 1 [] =
      .error "AttributeError" := rfl

/-! ### Claim C5 -/

/-- C5: writing a payload with a valid 14-digit key to the cache at time `ts`
and re-reading it at time `now` within the ttl returns the identical
`razao_social` / `simples_nacional` / `simei` / `data_consulta` values flagged
as a cache hit; a read whose age `now - ts` exceeds a positive ttl returns
absent; a non-positive `ttl_seconds` never expires. -/
theorem cache_roundtrip_ttl (db : Db) (payload : ConsultaResult) (ts now ttl : Int)
    (hvalid : isValid14 payload.cnpj = true) (hts : 0 < ts) :
    ((ttl ≤ 0 ∨ now - ts ≤ ttl) →
        cache_get (cache_set db payload ts) payload.cnpj ttl now =
          some { cnpj := payload.cnpj, razao_social := payload.razao_social,
                 simples_nacional := payload.simples_nacional, simei := payload.simei,
                 data_consulta := payload.data_consulta, erro := "", cached := true }) ∧
      (0 < ttl → ttl < now - ts →
        cache_get (cache_set db payload ts) payload.cnpj ttl now = none) := by
  have hlook : dbLookup (cache_set db payload ts) payload.cnpj =
      some ⟨some payload.razao_social, some payload.simples_nacional,
        some payload.simei, some payload.data_consulta, some ts⟩ := by
    unfold cache_set dbUpsert dbLookup
    simp [hvalid, List.lookup]
  constructor
  · intro hfresh
    unfold cache_get
    rw [hlook]
    simp only [Option.getD]
    rw [if_neg]
    rintro ⟨h1, _, h3⟩
    rcases hfresh with h | h <;> omega
  · intro h1 h2
    unfold cache_get
    rw [hlook]
    simp only [Option.getD]
    rw [if_pos]
    exact ⟨h1, hts, by omega⟩

/-- Witness for C5: concrete round-trip inside the ttl and expiry beyond it. -/
theorem cache_roundtrip_ttl_witness :
    isValid14 payW.cnpj = true ∧ (0 : Int) < 50 ∧
      cache_get (cache_set [] payW 50) payW.cnpj 100 120 =
        some { cnpj := payW.cnpj, razao_social := payW.razao_social,
               simples_nacional := payW.simples_nacional, simei := payW.simei,
               data_consulta := payW.data_consulta, erro := "", cached := true } ∧
      cache_get (cache_set [] payW 50) payW.cnpj 100 151 = none :=
  ⟨by decide, by decide,
   (cache_roundtrip_ttl [] payW 50 120 100 (by decide) (by decide)).1 (Or.inr (by decide)),
   (cache_roundtrip_ttl [] payW 50 151 100 (by decide) (by decide)).2 (by decide) (by decide)⟩

/-! ### Batch-runner lemmas -/

theorem invLoop_events (cbF : Nat → Nat → Bool) (invNow : Nat → String) (total : Nat) :
    ∀ (invs : List (String × String)) (idx done : Nat),
      (invLoop cbF invNow total idx done invs).events = consecEvents total done invs.length := by
  intro invs
  induction invs with
  | nil => intro idx done; rfl
  | cons row rest ih =>
      intro idx done
      simp only [invLoop, LoteTrace.app, List.length_cons, consecEvents]
      rw [ih (idx + 1) (done + 1)]
      rfl

theorem invLoop_sleeps (cbF : Nat → Nat → Bool) (invNow : Nat → String) (total : Nat) :
    ∀ (invs : List (String × String)) (idx done : Nat),
      (invLoop cbF invNow total idx done invs).sleeps = [] := by
  intro invs
  induction invs with
  | nil => intro idx done; rfl
  | cons row rest ih =>
      intro idx done
      simp only [invLoop, LoteTrace.app]
      rw [ih (idx + 1) (done + 1)]
      rfl

theorem consecEvents_mem (total : Nat) :
    ∀ (m done : Nat) (p : Nat × Nat), p ∈ consecEvents total done m →
      done < p.1 ∧ p.1 ≤ done + m ∧ p.2 = total := by
  intro m
  induction m with
  | zero => intro done p hp; simp [consecEvents] at hp
  | succ m ih =>
      intro done p hp
      simp only [consecEvents, List.mem_cons] at hp
      rcases hp with rfl | hp
      · exact ⟨Nat.lt_succ_self done, by omega, rfl⟩
      · obtain ⟨h1, h2, h3⟩ := ih (done + 1) p hp
        exact ⟨by omega, by omega, h3⟩

theorem consecEvents_chain (total : Nat) :
    ∀ (m done : Nat),
      List.Chain' (fun p q : Nat × Nat => p.1 ≤ q.1) (consecEvents total done m) := by
  intro m
  induction m with
  | zero => intro done; simp [consecEvents]
  | succ m ih =>
      intro done
      rw [consecEvents]
      refine List.chain'_cons'.mpr ⟨?_, ih (done + 1)⟩
      intro q hq
      cases m with
      | zero => simp [consecEvents] at hq
      | succ m' =>
          simp only [consecEvents, List.head?_cons, Option.mem_def, Option.some.injEq] at hq
          subst hq
          simp

theorem lotePost_events (sc : Nat → Bool) (cbF : Nat → Nat → Bool) (invNow : Nat → String)
    (total : Nat) (invs : List (String × String)) (j done : Nat) :
    ∃ m, m ≤ invs.length ∧
      (lotePost sc cbF invNow total invs j done).events = consecEvents total done m := by
  unfold lotePost
  by_cases hj : sc j
  · exact ⟨0, Nat.zero_le _, by simp [hj, LoteTrace.nil, consecEvents]⟩
  · exact ⟨invs.length, le_refl _, by simp [hj, invLoop_events]⟩

theorem loteLoop_events (oracle : Nat → String → ConsultaResult) (sc : Nat → Bool)
    (cbF : Nat → Nat → Bool) (invNow : Nat → String) (total : Nat) (s : ℚ)
    (invs : List (String × String)) :
    ∀ (cs : List String) (i done : Nat), ∃ m, m ≤ cs.length + invs.length ∧
      (loteLoop oracle sc cbF invNow total s invs cs i done).events =
        consecEvents total done m := by
  intro cs
  induction cs with
  | nil =>
      intro i done
      obtain ⟨m, hm, he⟩ := lotePost_events sc cbF invNow total invs i done
      exact ⟨m, by simpa using hm, he⟩
  | cons c rest ih =>
      intro i done
      by_cases hi : sc i
      · obtain ⟨m, hm, he⟩ := lotePost_events sc cbF invNow total invs (i + 1) done
        refine ⟨m, by simp; omega, ?_⟩
        simp only [loteLoop, hi, if_true]
        exact he
      · obtain ⟨m, hm, he⟩ := ih (i + 1) (done + 1)
        refine ⟨m + 1, by simp; omega, ?_⟩
        simp only [loteLoop, hi, if_false, LoteTrace.app]
        rw [he]
        rfl

/-! ### Claim C7 -/

/-- C7: in every batch run the sequence of `(done, total)` pairs handed to the
progress callback has monotonically non-decreasing `done`, every reported
`done` is at most `total`, and every reported `total` equals the number of
valid identifiers plus the number of invalid rows. -/
theorem lote_progress_monotone_bounded (oracle : Nat → String → ConsultaResult)
    (sc : Nat → Bool) (cbF : Nat → Nat → Bool) (invNow : Nat → String)
    (cnpjs : List String) (invs : List (String × String)) (s : ℚ) :
    List.Chain' (fun p q : Nat × Nat => p.1 ≤ q.1)
        (consultar_optante_lote oracle sc cbF invNow cnpjs invs s).events ∧
      ∀ p ∈ (consultar_optante_lote oracle sc cbF invNow cnpjs invs s).events,
        p.1 ≤ p.2 ∧ p.2 = cnpjs.length + invs.length := by
  obtain ⟨m, hm, he⟩ := loteLoop_events oracle sc cbF invNow
    (cnpjs.length + invs.length) (max PUBLIC_API_MIN_DELAY s) invs cnpjs 1 0
  have hev : (consultar_optante_lote oracle sc cbF invNow cnpjs invs s).events =
      (0, cnpjs.length + invs.length) :: consecEvents (cnpjs.length + invs.length) 0 m := by
    simp only [consultar_optante_lote, LoteTrace.app, tickTrace]
    rw [he]
    rfl
  rw [hev]
  constructor
  · refine List.chain'_cons'.mpr ⟨?_, consecEvents_chain _ m 0⟩
    intro q hq
    cases m with
    | zero => simp [consecEvents] at hq
    | succ m' =>
        simp only [consecEvents, List.head?_cons, Option.mem_def, Option.some.injEq] at hq
        subst hq
        simp
  · intro p hp
    rcases List.mem_cons.mp hp with rfl | hp
    · exact ⟨Nat.zero_le _, rfl⟩
    · obtain ⟨_, h2, h3⟩ := consecEvents_mem _ m 0 p hp
      exact ⟨by omega, h3⟩

/-- Witness for C7 on a concrete two-identifier batch. -/
theorem lote_progress_monotone_bounded_witness :
    ((1, 3) ∈ (consultar_optante_lote (fun _ c => ⟨c, "", "", "", "T", "", false⟩)
        (fun _ => false) (fun _ _ => false) (fun _ => "T")
        ["11111111111111", "22222222222222"] [("a", "b")] 13).events) ∧
      (1 ≤ 3 ∧ 3 = (["11111111111111", "22222222222222"] : List String).length +
        ([("a", "b")] : List (String × String)).length) :=
  ⟨by decide,
   (lote_progress_monotone_bounded (fun _ c => ⟨c, "", "", "", "T", "", false⟩)
      (fun _ => false) (fun _ _ => false) (fun _ => "T")
      ["11111111111111", "22222222222222"] [("a", "b")] 13).2 (1, 3) (by decide)⟩

theorem invLoop_cb_indep (cbF : Nat → Nat → Bool) (invNow : Nat → String) (total : Nat) :
    ∀ (invs : List (String × String)) (idx done : Nat),
      (invLoop cbF invNow total idx done invs).resultados =
          (invLoop (fun _ _ => false) invNow total idx done invs).resultados ∧
        (invLoop cbF invNow total idx done invs).events =
          (invLoop (fun _ _ => false) invNow total idx done invs).events ∧
        (invLoop cbF invNow total idx done invs).sleeps =
          (invLoop (fun _ _ => false) invNow total idx done invs).sleeps := by
  intro invs
  induction invs with
  | nil => intro idx done; exact ⟨rfl, rfl, rfl⟩
  | cons row rest ih =>
      intro idx done
      obtain ⟨h1, h2, h3⟩ := ih (idx + 1) (done + 1)
      simp only [invLoop, LoteTrace.app]
      exact ⟨by rw [h1], by rw [h2], by rw [h3]⟩

theorem lotePost_cb_indep (sc : Nat → Bool) (cbF : Nat → Nat → Bool) (invNow : Nat → String)
    (total : Nat) (invs : List (String × String)) (j done : Nat) :
    (lotePost sc cbF invNow total invs j done).resultados =
        (lotePost sc (fun _ _ => false) invNow total invs j done).resultados ∧
      (lotePost sc cbF invNow total invs j done).events =
        (lotePost sc (fun _ _ => false) invNow total invs j done).events ∧
      (lotePost sc cbF invNow total invs j done).sleeps =
        (lotePost sc (fun _ _ => false) invNow total invs j done).sleeps := by
  unfold lotePost
  by_cases hj : sc j
  · simp [hj]
  · simp only [hj, if_false]
    exact invLoop_cb_indep cbF invNow total invs 1 done

theorem loteLoop_cb_indep (oracle : Nat → String → ConsultaResult) (sc : Nat → Bool)
    (cbF : Nat → Nat → Bool) (invNow : Nat → String) (total : Nat) (s : ℚ)
    (invs : List (String × String)) :
    ∀ (cs : List String) (i done : Nat),
      (loteLoop oracle sc cbF invNow total s invs cs i done).resultados =
          (loteLoop oracle sc (fun _ _ => false) invNow total s invs cs i done).resultados ∧
        (loteLoop oracle sc cbF invNow total s invs cs i done).events =
          (loteLoop oracle sc (fun _ _ => false) invNow total s invs cs i done).events ∧
        (loteLoop oracle sc cbF invNow total s invs cs i done).sleeps =
          (loteLoop oracle sc (fun _ _ => false) invNow total s invs cs i done).sleeps := by
  intro cs
  induction cs with
  | nil => intro i done; exact lotePost_cb_indep sc cbF invNow total invs i done
  | cons c rest ih =>
      intro i done
      by_cases hi : sc i
      · simp only [loteLoop, hi, if_true]
        exact lotePost_cb_indep sc cbF invNow total invs (i + 1) done
      · obtain ⟨h1, h2, h3⟩ := ih (i + 1) (done + 1)
        simp [loteLoop, hi, LoteTrace.app, h1, h2, h3]

/-! ### Claim C10 -/

/-- C10: exceptions raised by the progress callback are swallowed by `_tick`:
whatever the raise pattern, the batch run appends the same result rows, makes
the same progress invocations, and performs the same sleeps as a run with a
never-raising callback. -/
theorem lote_callback_exception_ignored (oracle : Nat → String → ConsultaResult)
    (sc : Nat → Bool) (invNow : Nat → String) (cnpjs : List String)
    (invs : List (String × String)) (s : ℚ) (cbFails : Nat → Nat → Bool) :
    (consultar_optante_lote oracle sc cbFails invNow cnpjs invs s).resultados =
        (consultar_optante_lote oracle sc (fun _ _ => false) invNow cnpjs invs s).resultados ∧
      (consultar_optante_lote oracle sc cbFails invNow cnpjs invs s).events =
        (consultar_optante_lote oracle sc (fun _ _ => false) invNow cnpjs invs s).events ∧
      (consultar_optante_lote oracle sc cbFails invNow cnpjs invs s).sleeps =
        (consultar_optante_lote oracle sc (fun _ _ => false) invNow cnpjs invs s).sleeps := by
  obtain ⟨h1, h2, h3⟩ := loteLoop_cb_indep oracle sc cbFails invNow
    (cnpjs.length + invs.length) (max PUBLIC_API_MIN_DELAY s) invs cnpjs 1 0
  simp only [consultar_optante_lote, LoteTrace.app, tickTrace]
  exact ⟨by rw [h1], by rw [h2], by rw [h3]⟩

/-! ### Claim C6 -/

theorem lotePost_sleeps (sc : Nat → Bool) (cbF : Nat → Nat → Bool) (invNow : Nat → String)
    (total : Nat) (invs : List (String × String)) (j done : Nat) :
    (lotePost sc cbF invNow total invs j done).sleeps = [] := by
  unfold lotePost
  by_cases hj : sc j
  · simp [hj, LoteTrace.nil]
  · simp [hj, invLoop_sleeps]

theorem loteLoop_sleeps (oracle : Nat → String → ConsultaResult) (sc : Nat → Bool)
    (cbF : Nat → Nat → Bool) (invNow : Nat → String) (total : Nat) (s : ℚ)
    (invs : List (String × String)) :
    ∀ (cs : List String) (i : Nat) (done : Nat),
      (loteLoop oracle sc cbF invNow total s invs cs i done).sleeps =
        ((processedOf sc cs i).filter (fun p => !(oracle p.1 p.2).cached)).map
          (fun _ => max 0 s) := by
  intro cs
  induction cs with
  | nil =>
      intro i done
      simp [loteLoop, processedOf, lotePost_sleeps]
  | cons c rest ih =>
      intro i done
      by_cases hi : sc i
      · simp [loteLoop, hi, processedOf, lotePost_sleeps]
      · simp only [loteLoop, hi, if_false, LoteTrace.app, processedOf]
        rw [ih (i + 1) (done + 1)]
        by_cases hc : (oracle i c).cached
        · simp [hc]
        · simp [hc]

/-- C6 (amended): in every batch run, a cache-hit item never triggers the
inter-request delay, and every processed non-cache-hit item is followed by
one sleep of the clamped delay — including the last item: the code does not
check whether more items remain before sleeping. -/
theorem lote_sleep_per_miss (oracle : Nat → String → ConsultaResult) (sc : Nat → Bool)
    (cbF : Nat → Nat → Bool) (invNow : Nat → String) (cnpjs : List String)
    (invs : List (String × String)) (s : ℚ) :
    (consultar_optante_lote oracle sc cbF invNow cnpjs invs s).sleeps =
      ((processedOf sc cnpjs 1).filter (fun p => !(oracle p.1 p.2).cached)).map
        (fun _ => max 0 (max PUBLIC_API_MIN_DELAY s)) := by
  simp only [consultar_optante_lote, LoteTrace.app, tickTrace]
  rw [loteLoop_sleeps]
  rfl

/-- C6 counterexample: a single-identifier batch whose only lookup is a cache
miss still sleeps after that (final) item, although no items remain: the
original claim's "only when more items remain" fails. -/
theorem lote_sleep_after_last_item :
    (consultar_optante_lote (fun _ c => ⟨c, "", "", "", "T", "", false⟩)
          (fun _ => false) (fun _ _ => false) (fun _ => "T") ["11111111111111"] [] 0).resultados.length = 1
      ∧ (consultar_optante_lote (fun _ c => ⟨c, "", "", "", "T", "", false⟩)
          (fun _ => false) (fun _ _ => false) (fun _ => "T") ["11111111111111"] [] 0).sleeps =
        [PUBLIC_API_MIN_DELAY] := by
  constructor
  · rfl
  · show [max (0 : ℚ) (max PUBLIC_API_MIN_DELAY 0)] = [PUBLIC_API_MIN_DELAY]
    have h1 : max PUBLIC_API_MIN_DELAY (0 : ℚ) = PUBLIC_API_MIN_DELAY :=
      max_eq_left (by norm_num [PUBLIC_API_MIN_DELAY])
    have h2 : max (0 : ℚ) PUBLIC_API_MIN_DELAY = PUBLIC_API_MIN_DELAY :=
      max_eq_right (by norm_num [PUBLIC_API_MIN_DELAY])
    rw [h1, h2]

/-! ### Claim C2 -/

theorem lookupRows_length (oracle : Nat → String → ConsultaResult) :
    ∀ (cs : List String) (i : Nat), (lookupRows oracle i cs).length = cs.length := by
  intro cs
  induction cs with
  | nil => intro i; rfl
  | cons c rest ih => intro i; simp [lookupRows, ih (i + 1)]

theorem loteLoop_cancel (oracle : Nat → String → ConsultaResult) (sc : Nat → Bool)
    (cbF : Nat → Nat → Bool) (invNow : Nat → String) (total : Nat) (s : ℚ)
    (invs : List (String × String)) (k : Nat)
    (hmono : ∀ i j, i ≤ j → sc i = true → sc j = true)
    (hk : sc k = true) (hbefore : ∀ i, i < k → sc i = false) :
    ∀ (cs : List String) (i done : Nat), i ≤ k → k - i ≤ cs.length →
      (loteLoop oracle sc cbF invNow total s invs cs i done).resultados =
        lookupRows oracle i (cs.take (k - i)) := by
  intro cs
  induction cs with
  | nil =>
      intro i done hik hlen
      have hki : k ≤ i := by
        simp only [List.length_nil] at hlen
        omega
      have hsci : sc i = true := hmono k i hki hk
      have hkk : k - i = 0 := by omega
      simp [loteLoop, lotePost, hsci, LoteTrace.nil, hkk, lookupRows]
  | cons c rest ih =>
      intro i done hik hlen
      by_cases hika : i = k
      · subst hika
        have h2 : sc (i + 1) = true := hmono i (i + 1) (by omega) hk
        simp [loteLoop, hk, lotePost, h2, LoteTrace.nil, lookupRows]
      · have hlt : i < k := lt_of_le_of_ne hik hika
        have hsci : sc i = false := hbefore i hlt
        have e : k - i = (k - (i + 1)) + 1 := by omega
        have hrest : k - (i + 1) ≤ rest.length := by
          simp only [List.length_cons] at hlen
          omega
        simp only [loteLoop, hsci, Bool.false_eq_true, if_false, LoteTrace.app]
        rw [ih (i + 1) (done + 1) (by omega) hrest, e]
        simp [lookupRows]

/-- C2: when the cancellation signal — monotone, as a `threading.Event` is —
is first observed true at the poll immediately before item `k`, the batch
returns exactly the `k - 1` lookup rows of the already-processed identifiers
and no synthesized invalid-row record; the job finalizes with status
`canceled`, `done = true`, and output bytes built from that partial sequence,
available for download. -/
theorem lote_cancel_partial_results (oracle : Nat → String → ConsultaResult)
    (sc : Nat → Bool) (cbF : Nat → Nat → Bool) (invNow : Nat → String)
    (cnpjs : List String) (invs : List (String × String)) (s : ℚ)
    (output : String) (k finIdx : Nat)
    (hmono : ∀ i j, i ≤ j → sc i = true → sc j = true)
    (hk1 : 1 ≤ k) (hk2 : k ≤ cnpjs.length) (hsck : sc k = true)
    (hbefore : ∀ i, i < k → sc i = false) (hfin : k ≤ finIdx) :
    (consultar_optante_lote oracle sc cbF invNow cnpjs invs s).resultados =
        lookupRows oracle 1 (cnpjs.take (k - 1)) ∧
      (consultar_optante_lote oracle sc cbF invNow cnpjs invs s).resultados.length = k - 1 ∧
      (run_job oracle sc cbF invNow cnpjs invs s output finIdx).status = "canceled" ∧
      (run_job oracle sc cbF invNow cnpjs invs s output finIdx).done = true ∧
      (run_job oracle sc cbF invNow cnpjs invs s output finIdx).file_bytes =
        some (build_output_bytes (lookupRows oracle 1 (cnpjs.take (k - 1)))) ∧
      download_available (run_job oracle sc cbF invNow cnpjs invs s output finIdx) = true := by
  have hres : (consultar_optante_lote oracle sc cbF invNow cnpjs invs s).resultados =
      lookupRows oracle 1 (cnpjs.take (k - 1)) := by
    simp only [consultar_optante_lote, LoteTrace.app, tickTrace]
    rw [loteLoop_cancel oracle sc cbF invNow (cnpjs.length + invs.length)
      (max PUBLIC_API_MIN_DELAY s) invs k hmono hsck hbefore cnpjs 1 0 hk1 (by omega)]
    rfl
  have hlen : (consultar_optante_lote oracle sc cbF invNow cnpjs invs s).resultados.length =
      k - 1 := by
    rw [hres, lookupRows_length]
    rw [List.length_take]
    omega
  have hfinT : sc finIdx = true := hmono k finIdx hfin hsck
  refine ⟨hres, hlen, ?_, ?_, ?_, ?_⟩ <;>
    simp [run_job, processar_finalize, hfinT, hres, download_available]

/-- Witness for C2: three identifiers plus one invalid row, signal raised
before item 2: one lookup row, status `canceled`, downloadable partial file. -/
theorem lote_cancel_partial_results_witness :
    (consultar_optante_lote (fun _ c => ⟨c, "R", "", "", "T", "", false⟩) sc2w
        (fun _ _ => false) (fun _ => "T")
        ["11111111111111", "22222222222222", "33333333333333"] [("a", "b")] 13).resultados =
        lookupRows (fun _ c => ⟨c, "R", "", "", "T", "", false⟩) 1
          (["11111111111111", "22222222222222", "33333333333333"].take 1) ∧
      (consultar_optante_lote (fun _ c => ⟨c, "R", "", "", "T", "", false⟩) sc2w
        (fun _ _ => false) (fun _ => "T")
        ["11111111111111", "22222222222222", "33333333333333"] [("a", "b")] 13).resultados.length = 1 ∧
      (run_job (fun _ c => ⟨c, "R", "", "", "T", "", false⟩) sc2w (fun _ _ => false) (fun _ => "T")
        ["11111111111111", "22222222222222", "33333333333333"] [("a", "b")] 13 "csv" 9).status =
        "canceled" ∧
      (run_job (fun _ c => ⟨c, "R", "", "", "T", "", false⟩) sc2w (fun _ _ => false) (fun _ => "T")
        ["11111111111111", "22222222222222", "33333333333333"] [("a", "b")] 13 "csv" 9).done = true ∧
      (run_job (fun _ c => ⟨c, "R", "", "", "T", "", false⟩) sc2w (fun _ _ => false) (fun _ => "T")
        ["11111111111111", "22222222222222", "33333333333333"] [("a", "b")] 13 "csv" 9).file_bytes =
        some (build_output_bytes (lookupRows (fun _ c => ⟨c, "R", "", "", "T", "", false⟩) 1
          (["11111111111111", "22222222222222", "33333333333333"].take 1))) ∧
      download_available (run_job (fun _ c => ⟨c, "R", "", "", "T", "", false⟩) sc2w
        (fun _ _ => false) (fun _ => "T")
        ["11111111111111", "22222222222222", "33333333333333"] [("a", "b")] 13 "csv" 9) = true := by
  have h2 : (2 : Nat) ≤ ["11111111111111", "22222222222222", "33333333333333"].length := by
    decide
  exact lote_cancel_partial_results (fun _ c => ⟨c, "R", "", "", "T", "", false⟩) sc2w
    (fun _ _ => false) (fun _ => "T")
    ["11111111111111", "22222222222222", "33333333333333"] [("a", "b")] 13 "csv" 2 9
    (fun i j hij hi => by
      simp only [sc2w, decide_eq_true_eq] at hi ⊢
      omega)
    (by decide) h2 (by decide)
    (fun i hi => by
      simp only [sc2w, decide_eq_false_iff_not]
      omega)
    (by decide)

/-! ### Claim C8 -/

/-- C8: calling `cancelar` on an already-done job is a no-op — the job is
unchanged and the response carries the job's existing status, not
`"canceling"` by fiat; on a not-yet-done job it raises the cancellation
signal, moves the status to `"canceling"` exactly when it was `"queued"` or
`"running"` (leaving it unchanged otherwise), and answers `"canceling"`. -/
theorem cancelar_done_noop_spec (job : Job) :
    (job.done = true → cancelar job = (job, ⟨true, job.status⟩)) ∧
      (job.done = false →
        (cancelar job).1.cancel_set = true ∧
          ((job.status = "queued" ∨ job.status = "running") →
            (cancelar job).1.status = "canceling") ∧
          (¬(job.status = "queued" ∨ job.status = "running") →
            (cancelar job).1.status = job.status) ∧
          (cancelar job).2 = ⟨true, "canceling"⟩) := by
  constructor
  · intro hd
    simp [cancelar, hd]
  · intro hd
    refine ⟨?_, ?_, ?_, ?_⟩
    · simp only [cancelar, hd, Bool.false_eq_true, if_false]
      split <;> rfl
    · intro h
      simp only [cancelar, hd, Bool.false_eq_true, if_false, if_pos h]
    · intro h
      simp only [cancelar, hd, Bool.false_eq_true, if_false, if_neg h]
    · simp only [cancelar, hd, Bool.false_eq_true, if_false]

/-- Witness for C8 on a done job (no-op) and a running job (canceling). -/
theorem cancelar_done_noop_spec_witness :
    cancelar jobDoneW = (jobDoneW, ⟨true, jobDoneW.status⟩) ∧
      ((cancelar jobRunW).1.cancel_set = true ∧
        (cancelar jobRunW).1.status = "canceling" ∧
        (cancelar jobRunW).2 = ⟨true, "canceling"⟩) :=
  ⟨(cancelar_done_noop_spec jobDoneW).1 rfl,
   ⟨((cancelar_done_noop_spec jobRunW).2 rfl).1,
    ((cancelar_done_noop_spec jobRunW).2 rfl).2.1 (Or.inr rfl),
    ((cancelar_done_noop_spec jobRunW).2 rfl).2.2.2⟩⟩

end ConsultaOptantes
